import Mathlib

/-!
Shallow embedding of the zredis repository (Rust): the RESP frame model
(src/resp/mod.rs), the backend store (src/backend/mod.rs) and the command
layer (src/cmd/mod.rs, src/cmd/hmap.rs).

Rust strings and byte vectors are modelled as lists of byte values
(List Nat); machine i64 as Int.  Functions whose Rust originals can fail
return Except or Option.  The custom Ord impls for Nf64 and RespSet in
src/resp/mod.rs are mutually recursive without a base case
(partial_cmp calls cmp, cmp calls partial_cmp), so every function that can
reach them is written with an explicit fuel parameter: an outer none means
the Rust computation does not terminate (it recurses forever), while a
some result is the value the Rust code returns when it does terminate.
-/

namespace ZRedis

/-- Byte list of an ASCII string literal (models Rust str or byte literals). -/
def ascii (s : String) : List Nat := s.data.map Char.toNat

/-- Model of slice::to_ascii_lowercase, byte-wise ASCII case folding. -/
def toAsciiLower (b : List Nat) : List Nat :=
  b.map (fun c => if 65 ≤ c ∧ c ≤ 90 then c + 32 else c)

/-- Model of the f64 payload of Nf64 (src/resp/mod.rs line 57): either NaN or a
finite/inf value identified by its bit pattern.  No claim depends on float
arithmetic; only is_nan, equality and the (divergent) comparison are used. -/
inductive F64 where
  | nan : F64
  | fin (bits : Nat) : F64
deriving DecidableEq, Repr

/-- Model of PartialEq for Nf64 (src/resp/mod.rs lines 259-264):
IEEE equality patched so that two NaNs compare equal. -/
def nf64Eq : F64 → F64 → Bool
  | F64.nan, F64.nan => true
  | F64.fin a, F64.fin b => a = b
  | _, _ => false

/-- Model of RespFrame (src/resp/mod.rs lines 41-53).  The newtype wrappers
SimpleString, SimpleError, BulkString, RespArray, RespMap (a BTreeMap, kept
as a key-sorted association list), RespSet (a Vec) and Nf64 are inlined as
the payloads of the corresponding variants, in source declaration order. -/
inductive RespFrame where
  | SimpleString (s : List Nat)
  | Error (s : List Nat)
  | Integer (i : Int)
  | BulkString (b : List Nat)
  | Array (a : List RespFrame)
  | Null
  | Boolean (b : Bool)
  | Double (d : F64)
  | Map (m : List (List Nat × RespFrame))
  | Set (s : List RespFrame)

/-- Discriminant rank of a frame, following the declaration order of the
RespFrame enum, used by the derived Ord. -/
def frameRank : RespFrame → Nat
  | RespFrame.SimpleString _ => 0
  | RespFrame.Error _ => 1
  | RespFrame.Integer _ => 2
  | RespFrame.BulkString _ => 3
  | RespFrame.Array _ => 4
  | RespFrame.Null => 5
  | RespFrame.Boolean _ => 6
  | RespFrame.Double _ => 7
  | RespFrame.Map _ => 8
  | RespFrame.Set _ => 9

/-- Lexicographic comparison of byte lists (Rust Ord for String / Vec of u8). -/
def bytesCmp : List Nat → List Nat → Ordering
  | [], [] => Ordering.eq
  | [], _ :: _ => Ordering.lt
  | _ :: _, [] => Ordering.gt
  | a :: as_, b :: bs =>
    match compare a b with
    | Ordering.eq => bytesCmp as_ bs
    | o => o

mutual

/-- Model of Ord::cmp for Nf64 (src/resp/mod.rs lines 272-276):
cmp calls partial_cmp and unwraps.  Fuel-indexed; none means divergence
(the unwrap of a Rust None, a panic, is also mapped to none). -/
def nf64CmpFuel : Nat → F64 → F64 → Option Ordering
  | 0, _, _ => none
  | fuel + 1, a, b =>
    match nf64PartialCmpFuel fuel a b with
    | some (some o) => some o
    | _ => none

/-- Model of PartialOrd::partial_cmp for Nf64 (src/resp/mod.rs lines 266-271):
it returns Some(self.cmp(other)).  The outer Option is the fuel/divergence
layer, the inner Option is the Rust Option. -/
def nf64PartialCmpFuel : Nat → F64 → F64 → Option (Option Ordering)
  | 0, _, _ => none
  | fuel + 1, a, b => (nf64CmpFuel fuel a b).map some

end

mutual

/-- Model of Ord::cmp for RespSet (src/resp/mod.rs lines 309-313):
cmp calls partial_cmp and unwraps. -/
def respSetCmpFuel : Nat → List RespFrame → List RespFrame → Option Ordering
  | 0, _, _ => none
  | fuel + 1, a, b =>
    match respSetPartialCmpFuel fuel a b with
    | some (some o) => some o
    | _ => none

/-- Model of PartialOrd::partial_cmp for RespSet (src/resp/mod.rs lines
298-308): it returns Some(self.cmp(other)). -/
def respSetPartialCmpFuel : Nat → List RespFrame → List RespFrame →
    Option (Option Ordering)
  | 0, _, _ => none
  | fuel + 1, a, b => (respSetCmpFuel fuel a b).map some

end

mutual

/-- Model of the derived Ord::cmp for RespFrame: discriminants first, then
payloads; Double payloads use the custom Nf64 cmp and Set payloads the custom
RespSet cmp (both divergent).  Fuel is consumed on every recursive step. -/
def frameCmpFuel : Nat → RespFrame → RespFrame → Option Ordering
  | 0, _, _ => none
  | fuel + 1, x, y =>
    if frameRank x ≠ frameRank y then some (compare (frameRank x) (frameRank y))
    else
      match x, y with
      | RespFrame.SimpleString a, RespFrame.SimpleString b => some (bytesCmp a b)
      | RespFrame.Error a, RespFrame.Error b => some (bytesCmp a b)
      | RespFrame.Integer a, RespFrame.Integer b => some (compare a b)
      | RespFrame.BulkString a, RespFrame.BulkString b => some (bytesCmp a b)
      | RespFrame.Array a, RespFrame.Array b => frameListCmpFuel fuel a b
      | RespFrame.Null, RespFrame.Null => some Ordering.eq
      | RespFrame.Boolean a, RespFrame.Boolean b => some (compare a b)
      | RespFrame.Double a, RespFrame.Double b => nf64CmpFuel fuel a b
      | RespFrame.Map a, RespFrame.Map b => framePairsCmpFuel fuel a b
      | RespFrame.Set a, RespFrame.Set b => respSetCmpFuel fuel a b
      | _, _ => none

/-- Lexicographic comparison of frame vectors (Rust Ord for Vec). -/
def frameListCmpFuel : Nat → List RespFrame → List RespFrame → Option Ordering
  | 0, _, _ => none
  | _ + 1, [], [] => some Ordering.eq
  | _ + 1, [], _ :: _ => some Ordering.lt
  | _ + 1, _ :: _, [] => some Ordering.gt
  | fuel + 1, x :: xs, y :: ys =>
    match frameCmpFuel fuel x y with
    | some Ordering.eq => frameListCmpFuel fuel xs ys
    | some o => some o
    | none => none

/-- Lexicographic comparison of sorted key-value pair lists (Rust Ord for
BTreeMap of String to RespFrame). -/
def framePairsCmpFuel : Nat → List (List Nat × RespFrame) →
    List (List Nat × RespFrame) → Option Ordering
  | 0, _, _ => none
  | _ + 1, [], [] => some Ordering.eq
  | _ + 1, [], _ :: _ => some Ordering.lt
  | _ + 1, _ :: _, [] => some Ordering.gt
  | fuel + 1, (k1, v1) :: xs, (k2, v2) :: ys =>
    match bytesCmp k1 k2 with
    | Ordering.eq =>
      match frameCmpFuel fuel v1 v2 with
      | some Ordering.eq => framePairsCmpFuel fuel xs ys
      | some o => some o
      | none => none
    | o => some o

end

/-- Insert a frame into an already sorted list, before the first strictly
greater element (the stable position). -/
def insertFuel : Nat → RespFrame → List RespFrame → Option (List RespFrame)
  | 0, _, _ => none
  | _ + 1, x, [] => some [x]
  | fuel + 1, x, y :: ys =>
    match frameCmpFuel fuel x y with
    | none => none
    | some Ordering.gt => (insertFuel fuel x ys).map (fun r => y :: r)
    | some _ => some (x :: y :: ys)

/-- Model of Vec::sort on Vec of RespFrame: a stable sort by the derived Ord
(realised as insertion sort, whose output is the same sorted stable
permutation the Rust sort contract specifies).  Returns none when any
needed element comparison diverges. -/
def sortFuel : Nat → List RespFrame → Option (List RespFrame)
  | 0, _ => none
  | _ + 1, [] => some []
  | fuel + 1, x :: xs =>
    match sortFuel fuel xs with
    | none => none
    | some rest => insertFuel fuel x rest

mutual

/-- Model of the derived PartialEq::eq for RespFrame: structural, except that
Double payloads use the custom NaN-aware Nf64 equality and Set payloads the
custom sorted-copy RespSet equality (which sorts, hence can diverge). -/
def frameEqFuel : Nat → RespFrame → RespFrame → Option Bool
  | 0, _, _ => none
  | fuel + 1, x, y =>
    match x, y with
    | RespFrame.SimpleString a, RespFrame.SimpleString b => some (a = b)
    | RespFrame.Error a, RespFrame.Error b => some (a = b)
    | RespFrame.Integer a, RespFrame.Integer b => some (a = b)
    | RespFrame.BulkString a, RespFrame.BulkString b => some (a = b)
    | RespFrame.Array a, RespFrame.Array b => frameListEqFuel fuel a b
    | RespFrame.Null, RespFrame.Null => some true
    | RespFrame.Boolean a, RespFrame.Boolean b => some (a = b)
    | RespFrame.Double a, RespFrame.Double b => some (nf64Eq a b)
    | RespFrame.Map a, RespFrame.Map b => framePairsEqFuel fuel a b
    | RespFrame.Set a, RespFrame.Set b => respSetEqFuel fuel a b
    | _, _ => some false

/-- Element-wise equality of frame vectors (Rust PartialEq for Vec). -/
def frameListEqFuel : Nat → List RespFrame → List RespFrame → Option Bool
  | 0, _, _ => none
  | _ + 1, [], [] => some true
  | _ + 1, [], _ :: _ => some false
  | _ + 1, _ :: _, [] => some false
  | fuel + 1, x :: xs, y :: ys =>
    match frameEqFuel fuel x y with
    | some true => frameListEqFuel fuel xs ys
    | some false => some false
    | none => none

/-- Pairwise equality of key-value pair lists (Rust PartialEq for BTreeMap). -/
def framePairsEqFuel : Nat → List (List Nat × RespFrame) →
    List (List Nat × RespFrame) → Option Bool
  | 0, _, _ => none
  | _ + 1, [], [] => some true
  | _ + 1, [], _ :: _ => some false
  | _ + 1, _ :: _, [] => some false
  | fuel + 1, (k1, v1) :: xs, (k2, v2) :: ys =>
    if k1 = k2 then
      match frameEqFuel fuel v1 v2 with
      | some true => framePairsEqFuel fuel xs ys
      | some false => some false
      | none => none
    else some false

/-- Model of PartialEq::eq for RespSet (src/resp/mod.rs lines 289-297):
clone both element vectors, sort each, compare the sorted copies. -/
def respSetEqFuel : Nat → List RespFrame → List RespFrame → Option Bool
  | 0, _, _ => none
  | fuel + 1, a, b =>
    match sortFuel fuel a, sortFuel fuel b with
    | some sa, some sb => frameListEqFuel fuel sa sb
    | _, _ => none

end

/-- Model of Hash for Nf64 (src/resp/mod.rs lines 278-286) as the token
stream written to the hasher: a NaN writes the single byte 255, any other
value writes its bit pattern. -/
def nf64HashTokens : F64 → List Nat
  | F64.nan => [255]
  | F64.fin bits => [bits]

/-- Token stream a byte-list payload (String or Vec of u8) writes to the
hasher: its length followed by its bytes. -/
def bytesHashTokens (b : List Nat) : List Nat := b.length :: b

mutual

/-- Model of the derived Hash for RespFrame as the token stream written to
the hasher: the variant discriminant followed by the payload tokens; Double
uses the custom Nf64 hash and Set the custom sorted-copy RespSet hash
(which sorts, hence can diverge). -/
def frameHashFuel : Nat → RespFrame → Option (List Nat)
  | 0, _ => none
  | fuel + 1, x =>
    match x with
    | RespFrame.SimpleString a => some (0 :: bytesHashTokens a)
    | RespFrame.Error a => some (1 :: bytesHashTokens a)
    | RespFrame.Integer i => some (2 :: i.natAbs :: (if i < 0 then [1] else [0]))
    | RespFrame.BulkString a => some (3 :: bytesHashTokens a)
    | RespFrame.Array a => (frameListHashFuel fuel a).map (fun t => 4 :: t)
    | RespFrame.Null => some [5]
    | RespFrame.Boolean b => some [6, if b then 1 else 0]
    | RespFrame.Double d => some (7 :: nf64HashTokens d)
    | RespFrame.Map m => (framePairsHashFuel fuel m).map (fun t => 8 :: t)
    | RespFrame.Set s => (respSetHashFuel fuel s).map (fun t => 9 :: t)

/-- Token stream of a frame vector: length followed by each element. -/
def frameListHashFuel : Nat → List RespFrame → Option (List Nat)
  | 0, _ => none
  | _ + 1, [] => some []
  | fuel + 1, x :: xs =>
    match frameHashFuel fuel x, frameListHashFuel fuel xs with
    | some t, some ts => some (t ++ ts)
    | _, _ => none

/-- Token stream of a key-value pair list. -/
def framePairsHashFuel : Nat → List (List Nat × RespFrame) → Option (List Nat)
  | 0, _ => none
  | _ + 1, [] => some []
  | fuel + 1, (k, v) :: xs =>
    match frameHashFuel fuel v, framePairsHashFuel fuel xs with
    | some t, some ts => some (bytesHashTokens k ++ t ++ ts)
    | _, _ => none

/-- Model of Hash for RespSet (src/resp/mod.rs lines 315-323): clone the
element vector, sort it, hash each element of the sorted copy in order. -/
def respSetHashFuel : Nat → List RespFrame → Option (List Nat)
  | 0, _ => none
  | fuel + 1, s =>
    match sortFuel fuel s with
    | some sorted => frameListHashFuel fuel sorted
    | none => none

end

/-! ## Backend store (src/backend/mod.rs)

DashMap is modelled as an association list with insert-or-replace; DashSet
of RespFrame as a list of frames with membership through the frame equality
above.  Keys are UTF-8 byte lists (Rust String). -/

/-- Lookup in an association list (DashMap::get). -/
def alLookup {β : Type} : List (List Nat × β) → List Nat → Option β
  | [], _ => none
  | (k0, v0) :: rest, k => if k0 = k then some v0 else alLookup rest k

/-- Model of DashMap::insert: replaces the value of an existing key in place
or appends a new entry, and returns the previous value if any. -/
def alInsert {β : Type} : List (List Nat × β) → List Nat → β →
    Option β × List (List Nat × β)
  | [], k, v => (none, [(k, v)])
  | (k0, v0) :: rest, k, v =>
    if k0 = k then (some v0, (k, v) :: rest)
    else
      match alInsert rest k v with
      | (old, rest2) => (old, (k0, v0) :: rest2)

/-- Model of DashSet::contains on a set of frames: linear membership test
through the PartialEq of RespFrame. -/
def listContainsFuel (fuel : Nat) (x : RespFrame) :
    List RespFrame → Option Bool
  | [] => some false
  | y :: ys =>
    match frameEqFuel fuel x y with
    | some true => some true
    | some false => listContainsFuel fuel x ys
    | none => none

/-- Model of BackendInner (src/backend/mod.rs lines 10-15): three independent
namespaces, each keyed by string. -/
structure Backend where
  map : List (List Nat × RespFrame)
  hmap : List (List Nat × List (List Nat × RespFrame))
  dset : List (List Nat × List RespFrame)

/-- Model of Backend::default: all three namespaces empty. -/
def emptyBackend : Backend := ⟨[], [], []⟩

/-- Model of Backend::get (src/backend/mod.rs lines 45-48). -/
def backendGet (b : Backend) (key : List Nat) : Option RespFrame :=
  alLookup b.map key

/-- Model of Backend::set (src/backend/mod.rs lines 50-52). -/
def backendSet (b : Backend) (key : List Nat) (value : RespFrame) : Backend :=
  { b with map := (alInsert b.map key value).2 }

/-- Model of Backend::hget (src/backend/mod.rs lines 54-58). -/
def hgetB (b : Backend) (key field : List Nat) : Option RespFrame :=
  match alLookup b.hmap key with
  | some inner => alLookup inner field
  | none => none

/-- Model of Backend::hset (src/backend/mod.rs lines 60-63): the inner map is
created on first write (entry or_default), then the field is inserted. -/
def hsetB (b : Backend) (key field : List Nat) (value : RespFrame) : Backend :=
  let inner := (alLookup b.hmap key).getD []
  let inner2 := (alInsert inner field value).2
  { b with hmap := (alInsert b.hmap key inner2).2 }

/-- Model of Backend::hgetall (src/backend/mod.rs lines 65-67). -/
def hgetallB (b : Backend) (key : List Nat) :
    Option (List (List Nat × RespFrame)) :=
  alLookup b.hmap key

/-- Model of Backend::hmget (src/backend/mod.rs lines 69-77): for an existing
outer key, filter_map each requested field through the inner map. -/
def hmgetB (b : Backend) (key : List Nat) (fields : List (List Nat)) :
    Option (List RespFrame) :=
  (alLookup b.hmap key).map
    (fun inner => fields.filterMap (fun f => alLookup inner f))

/-- Model of Backend::echo (src/backend/mod.rs lines 79-81). -/
def echoB (_b : Backend) (key : List Nat) : Option RespFrame :=
  some (RespFrame.SimpleString key)

/-- Model of Backend::sadd (src/backend/mod.rs lines 83-92): build a brand
new singleton DashSet holding the member, insert it for the key (replacing
any existing set), and return 1 exactly when a previous set existed. -/
def saddB (b : Backend) (key : List Nat) (memb : RespFrame) :
    Option Nat × Backend :=
  let set := [memb]
  let (old, dset2) := alInsert b.dset key set
  (if old.isSome then some 1 else some 0, { b with dset := dset2 })

/-- Model of Backend::sismember (src/backend/mod.rs lines 94-105): Some 1
when the key exists and the set contains the item, None when the key exists
without the item, None when the key is absent. -/
def sismemberB (fuel : Nat) (b : Backend) (key : List Nat)
    (item : RespFrame) : Option (Option Nat) :=
  match alLookup b.dset key with
  | some vset =>
    match listContainsFuel fuel item vset with
    | some true => some (some 1)
    | some false => some none
    | none => none
  | none => some none

/-! ## Command layer (src/cmd/mod.rs, src/cmd/hmap.rs) -/

/-- Whether a byte is a UTF-8 continuation byte. -/
def utf8Cont (c : Nat) : Bool := 128 ≤ c && c ≤ 191

/-- UTF-8 validity of a byte list, the success condition of Rust
String::from_utf8. -/
def utf8Valid : List Nat → Bool
  | [] => true
  | b :: rest =>
    if b ≤ 127 then utf8Valid rest
    else if 194 ≤ b && b ≤ 223 then
      match rest with
      | c1 :: r => utf8Cont c1 && utf8Valid r
      | [] => false
    else if b = 224 then
      match rest with
      | c1 :: c2 :: r => (160 ≤ c1 && c1 ≤ 191) && utf8Cont c2 && utf8Valid r
      | _ => false
    else if (225 ≤ b && b ≤ 236) || b = 238 || b = 239 then
      match rest with
      | c1 :: c2 :: r => utf8Cont c1 && utf8Cont c2 && utf8Valid r
      | _ => false
    else if b = 237 then
      match rest with
      | c1 :: c2 :: r => (128 ≤ c1 && c1 ≤ 159) && utf8Cont c2 && utf8Valid r
      | _ => false
    else if b = 240 then
      match rest with
      | c1 :: c2 :: c3 :: r =>
        (144 ≤ c1 && c1 ≤ 191) && utf8Cont c2 && utf8Cont c3 && utf8Valid r
      | _ => false
    else if 241 ≤ b && b ≤ 243 then
      match rest with
      | c1 :: c2 :: c3 :: r =>
        utf8Cont c1 && utf8Cont c2 && utf8Cont c3 && utf8Valid r
      | _ => false
    else if b = 244 then
      match rest with
      | c1 :: c2 :: c3 :: r =>
        (128 ≤ c1 && c1 ≤ 143) && utf8Cont c2 && utf8Cont c3 && utf8Valid r
      | _ => false
    else false

/-- Model of CommandError (src/cmd/mod.rs lines 13-23).  Utf8Error carries
the offending bytes of the Rust FromUtf8Error. -/
inductive CommandError where
  | InvalidCommand (msg : String)
  | InvalidArgument (msg : String)
  | Utf8Error (bytes : List Nat)

/-- Best-effort text of a byte list, used only inside error messages
(stands in for Rust from_utf8_lossy). -/
def strOfBytes (b : List Nat) : String := String.mk (b.map Char.ofNat)

/-- Model of Rust String::from_utf8 lifted into CommandError through the
from-impl on FromUtf8Error. -/
def fromUtf8 (b : List Nat) : Except CommandError (List Nat) :=
  if utf8Valid b then Except.ok b else Except.error (CommandError.Utf8Error b)

/-- Model of the Command enum (src/cmd/mod.rs lines 30-45) with each
command struct inlined into its constructor. -/
inductive Command where
  | Get (key : List Nat)
  | Set (key : List Nat) (value : RespFrame)
  | HGet (key field : List Nat)
  | HSet (key field : List Nat) (value : RespFrame)
  | HGetAll (key : List Nat)
  | HMGet (key : List Nat) (fields : List (List Nat))
  | Echo (key : List Nat)
  | Sadd (key : List Nat) (item : RespFrame)
  | Sismember (key : List Nat) (item : RespFrame)
  | Unrecognized

/-- Name-token check loop of validate_command (src/cmd/mod.rs lines
182-199): position i of the array must be a BulkString whose ASCII
lowercase equals the expected name.  The final catch-all arm models an
index past the end of the array, which the preceding length check makes
unreachable. -/
def checkNames : List RespFrame → List String → Except CommandError Unit
  | _, [] => Except.ok ()
  | RespFrame.BulkString cmd :: rest, name :: more =>
    if toAsciiLower cmd ≠ ascii name then
      Except.error (CommandError.InvalidCommand
        ("Invalid command: expected " ++ name ++ ", got " ++ strOfBytes cmd))
    else checkNames rest more
  | _ :: _, _ :: _ =>
    Except.error (CommandError.InvalidCommand
      "Command must have a BulkString as the first argument")
  | [], _ :: _ =>
    Except.error (CommandError.InvalidCommand "unreachable: index out of bounds")

/-- Model of validate_command (src/cmd/mod.rs lines 169-201): exact length
check, then the name-token check. -/
def validateCommand (v : List RespFrame) (names : List String) (nArgs : Nat) :
    Except CommandError Unit :=
  if v.length ≠ nArgs + names.length then
    Except.error (CommandError.InvalidArgument
      (String.intercalate " " names ++ " command must have exactly "
        ++ toString nArgs ++ " argument"))
  else checkNames v names

/-- Model of extract_args (src/cmd/mod.rs lines 203-205). -/
def extractArgs (v : List RespFrame) (start : Nat) : List RespFrame :=
  v.drop start

/-- Model of TryFrom for Echo (src/cmd/mod.rs lines 108-123). -/
def echoTryFrom (v : List RespFrame) : Except CommandError Command := do
  let _ ← validateCommand v ["echo"] 1
  match (extractArgs v 1).head? with
  | some (RespFrame.BulkString key) => do
    let k ← fromUtf8 key
    return Command.Echo k
  | _ => Except.error (CommandError.InvalidArgument "Invalid argument")

/-- Model of TryFrom for HGet (src/cmd/hmap.rs lines 47-63). -/
def hgetTryFrom (v : List RespFrame) : Except CommandError Command := do
  let _ ← validateCommand v ["hget"] 2
  match extractArgs v 1 with
  | RespFrame.BulkString key :: RespFrame.BulkString field :: _ => do
    let k ← fromUtf8 key
    let f ← fromUtf8 field
    return Command.HGet k f
  | _ => Except.error (CommandError.InvalidArgument "Invalid key or field")

/-- Model of TryFrom for HGetAll (src/cmd/hmap.rs lines 65-77). -/
def hgetallTryFrom (v : List RespFrame) : Except CommandError Command := do
  let _ ← validateCommand v ["hgetall"] 1
  match (extractArgs v 1).head? with
  | some (RespFrame.BulkString key) => do
    let k ← fromUtf8 key
    return Command.HGetAll k
  | _ => Except.error (CommandError.InvalidArgument "Invalid key")

/-- Model of TryFrom for HSet (src/cmd/hmap.rs lines 79-98). -/
def hsetTryFrom (v : List RespFrame) : Except CommandError Command := do
  let _ ← validateCommand v ["hset"] 3
  match extractArgs v 1 with
  | RespFrame.BulkString key :: RespFrame.BulkString field :: value :: _ => do
    let k ← fromUtf8 key
    let f ← fromUtf8 field
    return Command.HSet k f value
  | _ =>
    Except.error (CommandError.InvalidArgument "Invalid key, field or value")

/-- Field collection loop of TryFrom for HMGet (src/cmd/hmap.rs lines
110-117): every remaining argument must be a BulkString holding valid
UTF-8; the first failure short-circuits. -/
def stringsOfFrames : List RespFrame → Except CommandError (List (List Nat))
  | [] => Except.ok []
  | RespFrame.BulkString bs :: rest =>
    match fromUtf8 bs with
    | Except.ok s => (stringsOfFrames rest).map (fun ss => s :: ss)
    | Except.error e => Except.error e
  | _ :: _ => Except.error (CommandError.InvalidArgument "Invalid field")

/-- Model of TryFrom for HMGet (src/cmd/hmap.rs lines 100-127): the expected
argument count is computed from the actual array length, so the length check
inside validate_command always passes; the key error takes precedence over a
field error. -/
def hmgetTryFrom (v : List RespFrame) : Except CommandError Command := do
  let nArgs := v.length - 1
  let _ ← validateCommand v ["hmget"] nArgs
  match extractArgs v 1 with
  | RespFrame.BulkString key :: rest =>
    let fieldsRes := stringsOfFrames rest
    do
      let k ← fromUtf8 key
      let fs ← fieldsRes
      return Command.HMGet k fs
  | _ => Except.error (CommandError.InvalidArgument "Invalid key")

/-- Modelled from the spec: TryFrom for Get lives in src/cmd/map.rs, which is
absent from src/.  Per section 4.4 the command has one BulkString key
argument, validated with the fixed literal and exact arity. -/
def getTryFrom (v : List RespFrame) : Except CommandError Command := do
  let _ ← validateCommand v ["get"] 1
  match (extractArgs v 1).head? with
  | some (RespFrame.BulkString key) => do
    let k ← fromUtf8 key
    return Command.Get k
  | _ => Except.error (CommandError.InvalidArgument "Invalid key")

/-- Modelled from the spec: TryFrom for Set lives in src/cmd/map.rs, which is
absent from src/.  Per section 4.4 the command takes a BulkString key and an
arbitrary frame value. -/
def setTryFrom (v : List RespFrame) : Except CommandError Command := do
  let _ ← validateCommand v ["set"] 2
  match extractArgs v 1 with
  | RespFrame.BulkString key :: value :: _ => do
    let k ← fromUtf8 key
    return Command.Set k value
  | _ => Except.error (CommandError.InvalidArgument "Invalid key or value")

/-- Modelled from the spec: TryFrom for Sadd lives in src/cmd/map.rs, which
is absent from src/.  Per section 4.4 and the Sadd struct (src/cmd/mod.rs
lines 87-91) the command takes a BulkString key and an arbitrary frame item. -/
def saddTryFrom (v : List RespFrame) : Except CommandError Command := do
  let _ ← validateCommand v ["sadd"] 2
  match extractArgs v 1 with
  | RespFrame.BulkString key :: item :: _ => do
    let k ← fromUtf8 key
    return Command.Sadd k item
  | _ => Except.error (CommandError.InvalidArgument "Invalid key or item")

/-- Modelled from the spec: TryFrom for Sismember lives in src/cmd/map.rs,
which is absent from src/.  Same shape as Sadd. -/
def sismemberTryFrom (v : List RespFrame) : Except CommandError Command := do
  let _ ← validateCommand v ["sismember"] 2
  match extractArgs v 1 with
  | RespFrame.BulkString key :: item :: _ => do
    let k ← fromUtf8 key
    return Command.Sismember k item
  | _ => Except.error (CommandError.InvalidArgument "Invalid key or item")

/-- Model of TryFrom RespArray for Command (src/cmd/mod.rs lines 146-167):
dispatch on the first element, which must be a BulkString; the name is
matched byte-for-byte against the fixed lowercase literals, and any other
name falls through to Unrecognized. -/
def commandOfArray (v : List RespFrame) : Except CommandError Command :=
  match v.head? with
  | some (RespFrame.BulkString cmd) =>
    if cmd = ascii "get" then getTryFrom v
    else if cmd = ascii "set" then setTryFrom v
    else if cmd = ascii "hget" then hgetTryFrom v
    else if cmd = ascii "hset" then hsetTryFrom v
    else if cmd = ascii "hgetall" then hgetallTryFrom v
    else if cmd = ascii "hmget" then hmgetTryFrom v
    else if cmd = ascii "echo" then echoTryFrom v
    else if cmd = ascii "sadd" then saddTryFrom v
    else if cmd = ascii "sismember" then sismemberTryFrom v
    else Except.ok Command.Unrecognized
  | _ =>
    Except.error (CommandError.InvalidCommand
      "Command must have a BulkString as the first argument")

/-! ## Command executors.  Each executor mirrors one CommandExecutor impl;
state is threaded explicitly, so an executor returns the reply frame
together with the backend it leaves behind. -/

/-- Sorted insert-or-replace into a BTreeMap of String to RespFrame,
ordered by byte-lexicographic key comparison. -/
def btreeInsert : List (List Nat × RespFrame) → List Nat → RespFrame →
    List (List Nat × RespFrame)
  | [], k, v => [(k, v)]
  | (k0, v0) :: rest, k, v =>
    match bytesCmp k k0 with
    | Ordering.lt => (k, v) :: (k0, v0) :: rest
    | Ordering.eq => (k, v) :: rest
    | Ordering.gt => (k0, v0) :: btreeInsert rest k v

/-- Model of CommandExecutor for HGet (src/cmd/hmap.rs lines 4-11). -/
def executeHGet (key field : List Nat) (b : Backend) : RespFrame × Backend :=
  (match hgetB b key field with
   | some v => v
   | none => RespFrame.Null, b)

/-- Model of CommandExecutor for HGetAll (src/cmd/hmap.rs lines 13-28):
iterate the inner map into a fresh RespMap (a BTreeMap, hence key-sorted),
or reply with an empty Array when the outer key is absent. -/
def executeHGetAll (key : List Nat) (b : Backend) : RespFrame × Backend :=
  (match hgetallB b key with
   | some inner =>
     RespFrame.Map (inner.foldl (fun m kv => btreeInsert m kv.1 kv.2) [])
   | none => RespFrame.Array [], b)

/-- Model of CommandExecutor for HSet (src/cmd/hmap.rs lines 30-35). -/
def executeHSet (key field : List Nat) (value : RespFrame) (b : Backend) :
    RespFrame × Backend :=
  (RespFrame.SimpleString (ascii "OK"), hsetB b key field value)

/-- Model of CommandExecutor for HMGet (src/cmd/hmap.rs lines 37-45). -/
def executeHMGet (key : List Nat) (fields : List (List Nat)) (b : Backend) :
    RespFrame × Backend :=
  (match hmgetB b key fields with
   | some values => RespFrame.Array values
   | none => RespFrame.Array [], b)

/-- Model of CommandExecutor for Echo (src/cmd/mod.rs lines 125-132). -/
def executeEcho (key : List Nat) (b : Backend) : RespFrame × Backend :=
  (match echoB b key with
   | some v => v
   | none => RespFrame.Null, b)

/-- Model of CommandExecutor for Unrecognized (src/cmd/mod.rs lines
101-105): reply with the fixed OK SimpleString, touch nothing. -/
def executeUnrecognized (b : Backend) : RespFrame × Backend :=
  (RespFrame.SimpleString (ascii "OK"), b)

/-- Modelled from the spec: the encoder (src/resp/encode.rs) is absent from
src/.  Per section 6 a SimpleString encodes as the marker byte plus text
plus CR-LF. -/
def encodeSimpleString (s : List Nat) : List Nat :=
  ascii "+" ++ s ++ [13, 10]

/-! ## Supporting lemmas -/

/-- Both halves of the Nf64 comparison diverge at every fuel: cmp and
partial_cmp call each other with no base case. -/
lemma nf64_cmp_div : ∀ fuel (a b : F64),
    nf64CmpFuel fuel a b = none ∧ nf64PartialCmpFuel fuel a b = none := by
  intro fuel
  induction fuel with
  | zero => exact fun a b => ⟨rfl, rfl⟩
  | succ n ih =>
    intro a b
    refine ⟨?_, ?_⟩
    · simp [nf64CmpFuel, (ih a b).2]
    · simp [nf64PartialCmpFuel, (ih a b).1]

/-- Both halves of the RespSet comparison diverge at every fuel. -/
lemma respSet_cmp_div : ∀ fuel (a b : List RespFrame),
    respSetCmpFuel fuel a b = none ∧ respSetPartialCmpFuel fuel a b = none := by
  intro fuel
  induction fuel with
  | zero => exact fun a b => ⟨rfl, rfl⟩
  | succ n ih =>
    intro a b
    refine ⟨?_, ?_⟩
    · simp [respSetCmpFuel, (ih a b).2]
    · simp [respSetPartialCmpFuel, (ih a b).1]

/-- Comparing two Double frames through the derived frame Ord diverges at
every fuel. -/
lemma frameCmp_double_div : ∀ fuel (a b : F64),
    frameCmpFuel fuel (RespFrame.Double a) (RespFrame.Double b) = none := by
  intro fuel a b
  match fuel with
  | 0 => rfl
  | n + 1 => simp [frameCmpFuel, frameRank, (nf64_cmp_div n a b).1]

/-- Sorting a vector that holds two Double frames diverges at every fuel:
the single needed element comparison never returns. -/
lemma sort_two_doubles_div : ∀ fuel (a b : F64),
    sortFuel fuel [RespFrame.Double a, RespFrame.Double b] = none := by
  intro fuel a b
  match fuel with
  | 0 => rfl
  | 1 => rfl
  | 2 => rfl
  | n + 3 =>
    simp [sortFuel, insertFuel, frameCmp_double_div]

/-- Dispatch helper: a first element whose bytes differ from all nine known
lowercase command names falls through to Unrecognized. -/
lemma dispatch_unknown (w : List Nat) (rest : List RespFrame)
    (h : w ∉ [ascii "get", ascii "set", ascii "hget", ascii "hset",
      ascii "hgetall", ascii "hmget", ascii "echo", ascii "sadd",
      ascii "sismember"]) :
    commandOfArray (RespFrame.BulkString w :: rest) =
      Except.ok Command.Unrecognized := by
  simp only [List.mem_cons, List.mem_singleton, not_or] at h
  obtain ⟨h1, h2, h3, h4, h5, h6, h7, h8, h9, -⟩ := h
  simp [commandOfArray, h1, h2, h3, h4, h5, h6, h7, h8, h9]

/-- Rewriting of filterMap as map over filter, used to phrase the hmget
result as one frame per present requested field. -/
lemma filterMap_eq_map_filter {α β : Type} (g : α → Option β) (d : β) :
    ∀ l : List α,
      l.filterMap g =
        (l.filter (fun a => (g a).isSome)).map (fun a => (g a).getD d) := by
  intro l
  induction l with
  | nil => rfl
  | cons x xs ih =>
    cases hx : g x <;>
      simp [List.filterMap_cons, List.filter_cons, hx, ih]

/-- Collecting the hmget field arguments over BulkStrings of valid UTF-8
yields exactly those byte strings. -/
lemma stringsOfFrames_map : ∀ fs : List (List Nat),
    (∀ f ∈ fs, utf8Valid f = true) →
    stringsOfFrames (fs.map RespFrame.BulkString) = Except.ok fs := by
  intro fs
  induction fs with
  | nil => intro _; rfl
  | cons f fs ih =>
    intro h
    have hf : utf8Valid f = true := h f (List.mem_cons_self f fs)
    have hrest := ih (fun g hg => h g (List.mem_cons_of_mem f hg))
    simp [stringsOfFrames, fromUtf8, hf, hrest, Except.map]

/-! ## Claims -/

/-- C1: the claim states canonical set semantics for sadd (return 1 on a
new member, accumulate members).  The code instead builds a brand new
singleton set on every call, overwriting the stored set, and returns 1
exactly when a previous set existed.  This theorem evaluates the code at
the failing inputs: a first-ever sadd returns Some 0 (the repository's own
test test_sadd asserts the reply 1 there), a repeated identical sadd
returns Some 1, and after sadd of a then sadd of b the stored set holds
only b, so a is no longer a member. -/
theorem sadd_inverted_and_overwrites :
    (saddB emptyBackend (ascii "skey") (RespFrame.BulkString (ascii "12"))).1
      = some 0
    ∧ (saddB (saddB emptyBackend (ascii "skey")
        (RespFrame.BulkString (ascii "a"))).2 (ascii "skey")
        (RespFrame.BulkString (ascii "a"))).1 = some 1
    ∧ (saddB (saddB emptyBackend (ascii "skey")
        (RespFrame.BulkString (ascii "a"))).2 (ascii "skey")
        (RespFrame.BulkString (ascii "b"))).2.dset
      = [(ascii "skey", [RespFrame.BulkString (ascii "b")])]
    ∧ (∀ fuel, sismemberB (fuel + 1)
        (saddB (saddB emptyBackend (ascii "skey")
          (RespFrame.BulkString (ascii "a"))).2 (ascii "skey")
          (RespFrame.BulkString (ascii "b"))).2
        (ascii "skey") (RespFrame.BulkString (ascii "a")) = some none) :=
  ⟨rfl, rfl, rfl, fun _ => rfl⟩

/-- C2: the claim states sismember always answers Some 1 or Some 0 and
never None.  The code returns None both when the key was never created and
when the key exists but the item is not in its set.  This theorem evaluates
the code at both failing inputs (the outer some means the call terminates,
the inner none is the Rust None the claim forbids). -/
theorem sismember_returns_none :
    (∀ fuel, sismemberB fuel emptyBackend (ascii "k") (RespFrame.Integer 5)
      = some none)
    ∧ (∀ fuel, sismemberB (fuel + 1)
        { emptyBackend with dset := [(ascii "k", [RespFrame.Integer 7])] }
        (ascii "k") (RespFrame.Integer 5) = some none) :=
  ⟨fun _ => rfl, fun _ => rfl⟩

/-- C3 counterexample: GET and Get both ASCII-case-fold to the known name
get, yet the conversion yields the Unrecognized fallback, so the claimed
case-insensitive matching fails at these concrete inputs. -/
theorem command_matching_not_case_insensitive :
    toAsciiLower (ascii "GET") = ascii "get"
    ∧ toAsciiLower (ascii "Get") = ascii "get"
    ∧ commandOfArray [RespFrame.BulkString (ascii "GET"),
        RespFrame.BulkString (ascii "hello")] = Except.ok Command.Unrecognized
    ∧ commandOfArray [RespFrame.BulkString (ascii "Get"),
        RespFrame.BulkString (ascii "hello")] =
        Except.ok Command.Unrecognized :=
  ⟨rfl, rfl, rfl, rfl⟩

/-- C3 amended: command-name matching is case-sensitive.  Exactly the
all-lowercase spelling converts to the known command; a first element whose
bytes differ from every known lowercase name, including any other casing of
a known name, falls through to the Unrecognized command value. -/
theorem command_matching_case_sensitive :
    (∀ w rest, w ∉ [ascii "get", ascii "set", ascii "hget", ascii "hset",
        ascii "hgetall", ascii "hmget", ascii "echo", ascii "sadd",
        ascii "sismember"] →
      commandOfArray (RespFrame.BulkString w :: rest) =
        Except.ok Command.Unrecognized)
    ∧ commandOfArray [RespFrame.BulkString (ascii "get"),
        RespFrame.BulkString (ascii "hello")] =
        Except.ok (Command.Get (ascii "hello")) :=
  ⟨dispatch_unknown, rfl⟩

/-- C3 witness: the amended theorem applied at the concrete unknown name
GET (a non-lowercase casing of a known name). -/
theorem command_matching_case_sensitive_witness :
    commandOfArray [RespFrame.BulkString (ascii "GET")] =
      Except.ok Command.Unrecognized :=
  command_matching_case_sensitive.1 (ascii "GET") [] (by decide)

/-- C4: hmget on an existing outer key returns exactly one frame per
requested field that is present in the inner map, in request order,
silently omitting absent fields; on a missing outer key it returns none and
the HMGet executor replies with an empty Array, leaving the backend as it
was. -/
theorem hmget_omits_missing_fields : ∀ (b : Backend) (k : List Nat)
    (fields : List (List Nat)),
    (alLookup b.hmap k = none →
      hmgetB b k fields = none
      ∧ executeHMGet k fields b = (RespFrame.Array [], b))
    ∧ (∀ inner, alLookup b.hmap k = some inner →
        hmgetB b k fields =
          some ((fields.filter (fun f => (alLookup inner f).isSome)).map
            (fun f => (alLookup inner f).getD RespFrame.Null))
        ∧ executeHMGet k fields b =
          (RespFrame.Array
            ((fields.filter (fun f => (alLookup inner f).isSome)).map
              (fun f => (alLookup inner f).getD RespFrame.Null)), b)) := by
  intro b k fields
  refine ⟨fun h => ?_, fun inner h => ?_⟩
  · simp [hmgetB, executeHMGet, h]
  · simp [hmgetB, executeHMGet, h,
      filterMap_eq_map_filter (fun f => alLookup inner f) RespFrame.Null]

/-- C4 witness: a backend holding one field under one key; requesting that
field together with an absent one returns only the present value (length 1,
not 2), and a never-set key gives none with an empty Array reply. -/
theorem hmget_omits_missing_fields_witness :
    hmgetB { emptyBackend with
        hmap := [(ascii "k", [(ascii "f1", RespFrame.BulkString (ascii "v1"))])] }
      (ascii "k") [ascii "f1", ascii "f2"]
      = some [RespFrame.BulkString (ascii "v1")]
    ∧ hmgetB { emptyBackend with
        hmap := [(ascii "k", [(ascii "f1", RespFrame.BulkString (ascii "v1"))])] }
      (ascii "nope") [ascii "f1"] = none := by
  constructor
  · exact ((hmget_omits_missing_fields
      { emptyBackend with
        hmap := [(ascii "k", [(ascii "f1", RespFrame.BulkString (ascii "v1"))])] }
      (ascii "k") [ascii "f1", ascii "f2"]).2
      [(ascii "f1", RespFrame.BulkString (ascii "v1"))] rfl).1
  · exact ((hmget_omits_missing_fields
      { emptyBackend with
        hmap := [(ascii "k", [(ascii "f1", RespFrame.BulkString (ascii "v1"))])] }
      (ascii "nope") [ascii "f1"]).1 rfl).1

/-- C5 counterexample: an hmget array holding a key and no fields converts
successfully to an HMGet command with an empty field list, where the claim
says it must fail with a CommandError. -/
theorem hmget_zero_fields_accepted :
    hmgetTryFrom [RespFrame.BulkString (ascii "hmget"),
      RespFrame.BulkString (ascii "key")] =
      Except.ok (Command.HMGet (ascii "key") []) := rfl

/-- C5 amended: the hmget argument list is variable-length with one key and
zero-or-more fields: a key plus any n BulkString fields of valid UTF-8
converts to an HMGet carrying exactly those n fields (n = 0 included), and
an hmget array with no key at all fails with a CommandError. -/
theorem hmget_variable_arity :
    (∀ (k : List Nat) (fs : List (List Nat)), utf8Valid k = true →
      (∀ f ∈ fs, utf8Valid f = true) →
      hmgetTryFrom (RespFrame.BulkString (ascii "hmget") ::
          RespFrame.BulkString k :: fs.map RespFrame.BulkString) =
        Except.ok (Command.HMGet k fs))
    ∧ hmgetTryFrom [RespFrame.BulkString (ascii "hmget")] =
        Except.error (CommandError.InvalidArgument "Invalid key") := by
  refine ⟨fun k fs hk hfs => ?_, rfl⟩
  have hname : toAsciiLower (ascii "hmget") = ascii "hmget" := rfl
  simp [hmgetTryFrom, validateCommand, checkNames, extractArgs, fromUtf8, hk,
    hname, stringsOfFrames_map fs hfs]
  rfl

/-- C5 witness: the amended theorem applied at a concrete key with one
field. -/
theorem hmget_variable_arity_witness :
    hmgetTryFrom [RespFrame.BulkString (ascii "hmget"),
      RespFrame.BulkString (ascii "key"), RespFrame.BulkString (ascii "a")] =
      Except.ok (Command.HMGet (ascii "key") [ascii "a"]) :=
  hmget_variable_arity.1 (ascii "key") [ascii "a"] (by decide) (by decide)

/-- C6: the claim states frame ordering is a terminating total function, in
particular on Double frames.  In the code Nf64 partial_cmp returns
Some(self.cmp(other)) while cmp returns self.partial_cmp(other).unwrap(),
and RespSet does the same, so neither comparison ever returns: at every
fuel the comparison of any two doubles, any two sets, and any two Double
frames is still undefined, and no collection holding two Double frames can
be sorted. -/
theorem frame_ordering_diverges : ∀ fuel (a b : F64)
    (s t : List RespFrame),
    nf64CmpFuel fuel a b = none
    ∧ respSetCmpFuel fuel s t = none
    ∧ frameCmpFuel fuel (RespFrame.Double a) (RespFrame.Double b) = none
    ∧ sortFuel fuel [RespFrame.Double a, RespFrame.Double b] = none :=
  fun fuel a b s t =>
    ⟨(nf64_cmp_div fuel a b).1, (respSet_cmp_div fuel s t).1,
      frameCmp_double_div fuel a b, sort_two_doubles_div fuel a b⟩

/-- C7: the claim states two Sets holding the same elements in different
insertion orders compare equal and hash equal through a sorted copy.  The
sorted copy is computed with the divergent Nf64 ordering of C6, so for two
Sets each holding the doubles 1.0 and 2.0 in opposite orders both the
equality test and the hash never return at any fuel, instead of answering
equal. -/
theorem set_eq_hash_diverge_on_doubles : ∀ fuel,
    respSetEqFuel fuel
      [RespFrame.Double (F64.fin 1), RespFrame.Double (F64.fin 2)]
      [RespFrame.Double (F64.fin 2), RespFrame.Double (F64.fin 1)] = none
    ∧ respSetHashFuel fuel
      [RespFrame.Double (F64.fin 1), RespFrame.Double (F64.fin 2)] = none := by
  intro fuel
  match fuel with
  | 0 => exact ⟨rfl, rfl⟩
  | n + 1 =>
    refine ⟨?_, ?_⟩
    · simp [respSetEqFuel, sort_two_doubles_div]
    · simp [respSetHashFuel, sort_two_doubles_div]

/-- C8: a first element naming no known command converts to the
Unrecognized command value rather than an error, and executing Unrecognized
replies with the fixed OK SimpleString, whose wire encoding is the bytes of
+OK followed by CR-LF, leaving the backend untouched. -/
theorem unknown_commands_tolerated :
    (∀ w rest, w ∉ [ascii "get", ascii "set", ascii "hget", ascii "hset",
        ascii "hgetall", ascii "hmget", ascii "echo", ascii "sadd",
        ascii "sismember"] →
      commandOfArray (RespFrame.BulkString w :: rest) =
        Except.ok Command.Unrecognized)
    ∧ (∀ b, executeUnrecognized b =
        (RespFrame.SimpleString (ascii "OK"), b))
    ∧ encodeSimpleString (ascii "OK") = ascii "+OK\r\n" :=
  ⟨dispatch_unknown, fun _ => rfl, rfl⟩

/-- C8 witness: the theorem applied at the concrete unknown name noop
against the empty backend. -/
theorem unknown_commands_tolerated_witness :
    commandOfArray [RespFrame.BulkString (ascii "noop")] =
      Except.ok Command.Unrecognized
    ∧ executeUnrecognized emptyBackend =
      (RespFrame.SimpleString (ascii "OK"), emptyBackend) :=
  ⟨unknown_commands_tolerated.1 (ascii "noop") [] (by decide),
    unknown_commands_tolerated.2.1 emptyBackend⟩

/-- C9: the read-only executors HGet, HGetAll, HMGet, Echo and Unrecognized
leave the backend exactly as it was: the state each returns is the state it
was given, so every key of every namespace keeps its value and no key is
added. -/
theorem readonly_commands_preserve_backend : ∀ (b : Backend)
    (k f : List Nat) (fields : List (List Nat)),
    (executeHGet k f b).2 = b
    ∧ (executeHGetAll k b).2 = b
    ∧ (executeHMGet k fields b).2 = b
    ∧ (executeEcho k b).2 = b
    ∧ (executeUnrecognized b).2 = b :=
  fun _ _ _ _ => ⟨rfl, rfl, rfl, rfl, rfl⟩

/-- C10: converting an empty Array, or an Array whose first element is not
a BulkString, fails with the InvalidCommand variant carrying the message
about the required BulkString first argument; it is neither InvalidArgument
nor the Unrecognized command. -/
theorem non_bulkstring_first_element_rejected :
    commandOfArray [] = Except.error (CommandError.InvalidCommand
      "Command must have a BulkString as the first argument")
    ∧ (∀ f rest, (∀ bs, f ≠ RespFrame.BulkString bs) →
        commandOfArray (f :: rest) =
          Except.error (CommandError.InvalidCommand
            "Command must have a BulkString as the first argument")) := by
  refine ⟨rfl, fun f rest h => ?_⟩
  cases f with
  | BulkString bs => exact absurd rfl (h bs)
  | _ => rfl

/-- C10 witness: the theorem applied at an Integer first element. -/
theorem non_bulkstring_first_element_rejected_witness :
    commandOfArray [RespFrame.Integer 5, RespFrame.BulkString (ascii "x")] =
      Except.error (CommandError.InvalidCommand
        "Command must have a BulkString as the first argument") :=
  non_bulkstring_first_element_rejected.2 (RespFrame.Integer 5)
    [RespFrame.BulkString (ascii "x")] (fun _ h => nomatch h)

end ZRedis
